/-
  Verification of the geometry kernel in src/Op.ts (pts library core):
  scalar utilities (Num), geometry helpers (Geom), line/segment geometry
  (Line) and rectangle decomposition (Rectangle).

  Numbers are modelled as exact rationals (ℚ).  The JavaScript `%`
  operator (truncated remainder) is modelled by `jsMod`; the sentinel
  `undefined` is modelled by `Option`; `throw` by `Except`.
-/
import Mathlib

namespace Op

/-- JavaScript truncation toward zero, as used by the `%` operator. -/
def jsTrunc (q : ℚ) : ℤ := if 0 ≤ q then ⌊q⌋ else ⌈q⌉

/-- JavaScript remainder `x % y`: `x - y * trunc (x / y)`
    (sign follows the dividend). -/
def jsMod (x y : ℚ) : ℚ := x - y * (jsTrunc (x / y) : ℚ)

namespace Num

/-- Model of `Num.lerp` from Op.ts: `(1-t) * a + t * b`. -/
def lerp (a b t : ℚ) : ℚ := (1 - t) * a + t * b

/-- Model of `Num.boundValue` from Op.ts:
    `len = |max - min|; a = val % len;
     if (a > max) a -= len; else if (a < min) a += len; return a`.
    The `positive` parameter is accepted and, as in the source, never read. -/
def boundValue (val mi ma : ℚ) (positive : Bool := false) : ℚ :=
  let len := |ma - mi|
  let a := jsMod val len
  if a > ma then a - len
  else if a < mi then a + len
  else a

/-- Model of `Num.normalizeValue` from Op.ts: `(n - min a b) / (max a b - min a b)`. -/
def normalizeValue (n a b : ℚ) : ℚ :=
  (n - min a b) / (max a b - min a b)

/-- Model of `Num.mapToRange` from Op.ts: throws when `currA == currB`, otherwise
    `normalizeValue(n, currA, currB) * (max - min) + min` over the target
    range. -/
def mapToRange (n currA currB targetA targetB : ℚ) : Except String ℚ :=
  if currA = currB then
    Except.error "[currMin, currMax] must define a range that is not zero"
  else
    let mi := min targetA targetB
    let ma := max targetA targetB
    Except.ok (normalizeValue n currA currB * (ma - mi) + mi)

end Num

/-- A 2D point: only components 0 and 1 are touched by the Line and
    Rectangle operations. -/
structure Pt2 where
  x : ℚ
  y : ℚ
deriving DecidableEq, Repr

/-- A 2-point group `[p0, p1]`, representing a line or bounded segment. -/
def Seg : Type := Pt2 × Pt2

instance : DecidableEq Seg := instDecidableEqProd

namespace Geom

/-- IEEE-754 `Number.MAX_VALUE` as an exact rational: `(2^53 - 1) * 2^971`. -/
def numberMaxValue : ℚ := (2 ^ 53 - 1) * 2 ^ 971

/-- IEEE-754 `Number.MIN_VALUE` (smallest positive double) as an exact
    rational: `2^(-1074)`. -/
def numberMinValue : ℚ := 1 / 2 ^ 1074

/-- Inner loop of `Geom.boundingBox` for the running minimum: for each
    dimension `d` of point `p`, write `p[d]` into the accumulator when
    `p[d] < acc[d]`.  A `d` beyond the accumulator's length never updates
    (in JS, `x < undefined` is false). -/
def bboxMinStep (acc p : List ℚ) : List ℚ :=
  (List.range p.length).foldl
    (fun m d =>
      match m[d]?, p[d]? with
      | some mv, some pv => if pv < mv then m.set d pv else m
      | _, _ => m) acc

/-- Inner loop of `Geom.boundingBox` for the running maximum (same shape,
    with `>`). -/
def bboxMaxStep (acc p : List ℚ) : List ℚ :=
  (List.range p.length).foldl
    (fun m d =>
      match m[d]?, p[d]? with
      | some mv, some pv => if pv > mv then m.set d pv else m
      | _, _ => m) acc

/-- Model of `Geom.boundingBox` from Op.ts: the min accumulator starts as the first
    point filled with `Number.MAX_VALUE`, the max accumulator as the first
    point filled with `Number.MIN_VALUE` (the smallest POSITIVE double),
    and each input point is folded through the comparison loops.
    Accessing `pts[0]` of an empty group throws, modelled as `none`. -/
def boundingBox (pts : List (List ℚ)) : Option (List ℚ × List ℚ) :=
  match pts with
  | [] => none
  | p0 :: _ =>
    let minPt0 := List.replicate p0.length numberMaxValue
    let maxPt0 := List.replicate p0.length numberMinValue
    some (pts.foldl bboxMinStep minPt0, pts.foldl bboxMaxStep maxPt0)

/-- Model of `Geom.withinBound` from Op.ts, restricted to 2D operands: componentwise
    inclusive containment between `Math.min` and `Math.max` of the bounds. -/
def withinBound (pt b1 b2 : Pt2) : Bool :=
  decide (min b1.x b2.x ≤ pt.x ∧ pt.x ≤ max b1.x b2.x ∧
          min b1.y b2.y ≤ pt.y ∧ pt.y ≤ max b1.y b2.y)

end Geom

namespace Line

/-- Model of `Line.slope` from Op.ts: `undefined` when `p2[0] - p1[0] === 0`,
    otherwise `(y2 - y1) / (x2 - x1)`. -/
def slope (p1 p2 : Pt2) : Option ℚ :=
  if p2.x - p1.x = 0 then none else some ((p2.y - p1.y) / (p2.x - p1.x))

/-- The record `{slope, yi, xi}` returned by `Line.intercept`. -/
structure InterceptData where
  slope : ℚ
  yi : ℚ
  xi : Option ℚ
deriving DecidableEq, Repr

/-- Model of `Line.intercept` from Op.ts: `undefined` for vertical lines; otherwise
    slope `m`, y-intercept `c = y1 - m*x1`, and x-intercept `-c/m`
    (itself `undefined` when `m === 0`). -/
def intercept (p1 p2 : Pt2) : Option InterceptData :=
  if p2.x - p1.x = 0 then none
  else
    let m := (p2.y - p1.y) / (p2.x - p1.x)
    let c := p1.y - m * p1.x
    some ⟨m, c, if m = 0 then none else some (-c / m)⟩

/-- Model of `Line.intersectPath2D` from Op.ts: intersection of the two INFINITE
    lines through the endpoints of `la` and `lb`, by the source's exact
    case analysis on the two `intercept` results. -/
def intersectPath2D (la lb : Seg) : Option Pt2 :=
  let a := intercept la.1 la.2
  let b := intercept lb.1 lb.2
  let pa := la.1
  let pb := lb.1
  match a with
  | none =>
    match b with
    | none => none
    | some ib =>
      -- la is vertical, lb is not: x is pa's x, y from lb's slope form
      some ⟨pa.x, -ib.slope * (pb.x - pa.x) + pb.y⟩
  | some ia =>
    match b with
    | none =>
      -- lb is vertical, la is not
      some ⟨pb.x, -ia.slope * (pa.x - pb.x) + pa.y⟩
    | some ib =>
      if ib.slope ≠ ia.slope then
        let px := (ia.slope * pa.x - ib.slope * pb.x + pb.y - pa.y) /
                  (ia.slope - ib.slope)
        some ⟨px, ia.slope * (px - pa.x) + pa.y⟩
      else
        if ia.yi = ib.yi then some ⟨pa.x, pa.y⟩ else none

/-- Model of `Line.intersectLine2D` from Op.ts: the infinite-line intersection,
    kept only when it lies within both segments' bounds. -/
def intersectLine2D (la lb : Seg) : Option Pt2 :=
  match intersectPath2D la lb with
  | some pt =>
    if Geom.withinBound pt la.1 la.2 && Geom.withinBound pt lb.1 lb.2
    then some pt else none
  | none => none

/-- The source's coincident-lines condition: both `intercept`s defined
    with equal slope and equal y-intercept (the branch of
    `intersectPath2D` that returns `la`'s first point). -/
def coincident (la lb : Seg) : Bool :=
  match intercept la.1 la.2, intercept lb.1 lb.2 with
  | some ia, some ib => ia.slope == ib.slope && ia.yi == ib.yi
  | _, _ => false

end Line

namespace Rectangle

/-- Model of `Rectangle.sides` from Op.ts: with `p0 = pts[0]`, `p2 = pts[1]`,
    `p1 = (p0.x, p2.y)`, `p3 = (p2.x, p0.y)`, returns
    `[[p0,p1],[p1,p2],[p2,p3],[p3,p0]]`. -/
def sides (pts : Seg) : List Seg :=
  let p0 := pts.1
  let p2 := pts.2
  let p1 : Pt2 := ⟨p0.x, p2.y⟩
  let p3 : Pt2 := ⟨p2.x, p0.y⟩
  [(p0, p1), (p1, p2), (p2, p3), (p3, p0)]

/-- Modelled from the spec's words for comparison (claim C8): the four
    boundary segments in the winding order top, right, bottom, left,
    derived from the diagonal corners `p0 = topLeft`, `p2 = bottomRight`. -/
def sidesSpecOrder (pts : Seg) : List Seg :=
  let p0 := pts.1
  let p2 := pts.2
  let p1 : Pt2 := ⟨p0.x, p2.y⟩
  let p3 : Pt2 := ⟨p2.x, p0.y⟩
  [(p0, p3), (p3, p2), (p2, p1), (p1, p0)]

end Rectangle

/-! ### Helper lemmas about `Num.boundValue` with `min = 0` -/

theorem boundValue_zero_eq (val ma : ℚ) (h : 0 < ma) :
    Num.boundValue val 0 ma = val - ma * (⌊val / ma⌋ : ℚ) := by
  have hne : ma ≠ 0 := ne_of_gt h
  have habs : |ma - 0| = ma := by rw [sub_zero, abs_of_pos h]
  have key : val - ma * ((⌊val / ma⌋ : ℤ) : ℚ) = ma * Int.fract (val / ma) := by
    rw [Int.fract, mul_sub, mul_div_cancel₀ val hne]
  simp only [Num.boundValue, jsMod, jsTrunc, habs]
  by_cases hq : 0 ≤ val / ma
  · rw [if_pos hq]
    have h0 : 0 ≤ ma * Int.fract (val / ma) := mul_nonneg h.le (Int.fract_nonneg _)
    have h1 : ma * Int.fract (val / ma) < ma := by
      have := mul_lt_mul_of_pos_left (Int.fract_lt_one (val / ma)) h
      simpa using this
    rw [key]
    rw [if_neg (by linarith), if_neg (by linarith)]
  · by_cases hz : Int.fract (val / ma) = 0
    · have hq1 : val / ma = ((⌊val / ma⌋ : ℤ) : ℚ) := by
        have := Int.fract (val / ma)
        rw [Int.fract] at hz
        linarith [sub_eq_zero.mp hz]
      have hqe : (⌈val / ma⌉ : ℤ) = ⌊val / ma⌋ := by
        rw [hq1, Int.ceil_intCast, Int.floor_intCast]
      rw [if_neg hq, hqe, key, hz, mul_zero]
      rw [if_neg (by linarith), if_neg (lt_irrefl 0)]
    · have h2 : 0 < Int.fract (val / ma) :=
        lt_of_le_of_ne (Int.fract_nonneg _) (Ne.symm hz)
      have h3 : Int.fract (val / ma) < 1 := Int.fract_lt_one _
      have hcf : (⌈val / ma⌉ : ℤ) = ⌊val / ma⌋ + 1 := by
        apply le_antisymm
        · apply Int.ceil_le.mpr
          push_cast
          linarith [Int.lt_floor_add_one (val / ma)]
        · apply Int.add_one_le_iff.mpr
          apply Int.lt_ceil.mpr
          rw [Int.fract] at h2
          linarith
      have hub : ma * Int.fract (val / ma) < ma := by
        have := mul_lt_mul_of_pos_left h3 h
        simpa using this
      have hlb : 0 < ma * Int.fract (val / ma) := mul_pos h h2
      have key2 : val - ma * ((((⌊val / ma⌋ : ℤ) : ℚ)) + 1) =
          ma * Int.fract (val / ma) - ma := by
        rw [mul_add, mul_one, sub_add_eq_sub_sub, key]
      rw [if_neg hq, hcf]
      push_cast
      rw [key2]
      rw [if_neg (by linarith), if_pos (by linarith)]
      rw [← key]
      ring

/-! ### Claims about `Num.boundValue` (C3, C4, C10) -/

/-- C3, counterexample: as stated — for every `min < max` — periodicity
    fails.  With `val = 1/2`, `k = -1`, `min = 10`, `max = 11` the source
    returns `1/2` for the shifted value but `3/2` for the original
    (`val % len` is not shifted by `min` before the single correction). -/
theorem boundValue_periodicity_cex :
    Num.boundValue (1 / 2 + (-1 : ℤ) * (11 - 10)) 10 11 ≠
      Num.boundValue (1 / 2) 10 11 := by
  have h1 : Num.boundValue (1 / 2 + (-1 : ℤ) * (11 - 10)) 10 11 = 1 / 2 := by
    have hv : ((1 : ℚ) / 2 + ((-1 : ℤ) : ℚ) * (11 - 10)) = -(1 / 2) := by
      push_cast; ring
    have hmod : jsMod (-(1 / 2)) 1 = -(1 / 2) := by
      simp only [jsMod, jsTrunc]
      rw [if_neg (by norm_num)]
      rw [show (-(1 / 2) / 1 : ℚ) = -(1 / 2) by norm_num, Int.ceil_neg]
      norm_num
    rw [hv]
    simp only [Num.boundValue]
    rw [show |(11 : ℚ) - 10| = 1 by norm_num, hmod]
    rw [if_neg (by norm_num), if_pos (by norm_num)]
    norm_num
  have h2 : Num.boundValue (1 / 2) 10 11 = 3 / 2 := by
    have hmod : jsMod (1 / 2) 1 = 1 / 2 := by
      simp only [jsMod, jsTrunc]
      rw [if_pos (by norm_num)]
      norm_num
    simp only [Num.boundValue]
    rw [show |(11 : ℚ) - 10| = 1 by norm_num, hmod]
    rw [if_neg (by norm_num), if_pos (by norm_num)]
    norm_num
  rw [h1, h2]
  norm_num

/-- C3, amended: modular periodicity does hold for the ranges the library
    uses, those with `min = 0` (`boundAngle`, `boundRadian`): for every
    `val`, every `max > 0` and every integer `k`,
    `boundValue(val + k*max, 0, max) = boundValue(val, 0, max)`. -/
theorem boundValue_zero_periodic (val ma : ℚ) (k : ℤ) (h : 0 < ma) :
    Num.boundValue (val + k * ma) 0 ma = Num.boundValue val 0 ma := by
  have hne : ma ≠ 0 := ne_of_gt h
  rw [boundValue_zero_eq _ _ h, boundValue_zero_eq _ _ h]
  have hdiv : (val + k * ma) / ma = val / ma + k := by
    field_simp
  rw [hdiv, Int.floor_add_int]
  push_cast
  ring

/-- Witness for the amended C3 at `val = 45`, `max = 360`, `k = 2`. -/
theorem boundValue_zero_periodic_witness :
    (0 : ℚ) < 360 ∧
      Num.boundValue (45 + (2 : ℤ) * 360) 0 360 = Num.boundValue 45 0 360 :=
  ⟨by norm_num, boundValue_zero_periodic 45 360 2 (by norm_num)⟩

/-- C4, counterexample: as stated — for every `min < max` — the result can
    leave `[min, max)`: `boundValue(10.5, 10, 11) = 3/2 ∉ [10, 11)`.  Also
    `val = max` does not always yield `min`: `boundValue(5, -5, 5) = 5 ≠ -5`. -/
theorem boundValue_range_cex :
    Num.boundValue (21 / 2) 10 11 = 3 / 2 ∧ ¬ ((10 : ℚ) ≤ 3 / 2) ∧
      Num.boundValue 5 (-5) 5 = 5 ∧ (5 : ℚ) ≠ -5 := by
  refine ⟨?_, by norm_num, ?_, by norm_num⟩
  · have hmod : jsMod (21 / 2) 1 = 1 / 2 := by
      simp only [jsMod, jsTrunc]
      rw [if_pos (by norm_num)]
      norm_num
    simp only [Num.boundValue]
    rw [show |(11 : ℚ) - 10| = 1 by norm_num, hmod]
    rw [if_neg (by norm_num), if_pos (by norm_num)]
    norm_num
  · have hmod : jsMod 5 10 = 5 := by
      simp only [jsMod, jsTrunc]
      rw [if_pos (by norm_num)]
      norm_num
    simp only [Num.boundValue]
    rw [show |(5 : ℚ) - -5| = 10 by norm_num, hmod]
    rw [if_neg (by norm_num), if_neg (by norm_num)]

/-- C4, amended: for the ranges with `min = 0` and `max > 0`:
    `boundValue(val, 0, max)` lies in `[0, max)`; an input exactly equal to
    `max` is pulled back by one period, yielding `0 = min`; and an input one
    period below the range (`-max < val < 0`) is pushed forward by one
    period (`val + max`). -/
theorem boundValue_zero_range (val ma : ℚ) (h : 0 < ma) :
    (0 ≤ Num.boundValue val 0 ma ∧ Num.boundValue val 0 ma < ma) ∧
      Num.boundValue ma 0 ma = 0 ∧
      (-ma < val → val < 0 → Num.boundValue val 0 ma = val + ma) := by
  have hne : ma ≠ 0 := ne_of_gt h
  have key : val - ma * ((⌊val / ma⌋ : ℤ) : ℚ) = ma * Int.fract (val / ma) := by
    rw [Int.fract, mul_sub, mul_div_cancel₀ val hne]
  refine ⟨⟨?_, ?_⟩, ?_, ?_⟩
  · rw [boundValue_zero_eq _ _ h, key]
    exact mul_nonneg h.le (Int.fract_nonneg _)
  · rw [boundValue_zero_eq _ _ h, key]
    have := mul_lt_mul_of_pos_left (Int.fract_lt_one (val / ma)) h
    simpa using this
  · rw [boundValue_zero_eq _ _ h, div_self hne]
    norm_num
  · intro h1 h2
    rw [boundValue_zero_eq _ _ h]
    have hfl : ⌊val / ma⌋ = -1 := by
      apply Int.floor_eq_iff.mpr
      constructor
      · push_cast
        rw [le_div_iff h]
        linarith
      · push_cast
        rw [div_lt_iff h]
        linarith
    rw [hfl]
    push_cast
    ring

/-- Witness for the amended C4 at `val = -90`, `max = 360`. -/
theorem boundValue_zero_range_witness :
    (0 : ℚ) < 360 ∧
      (0 ≤ Num.boundValue (-90) 0 360 ∧ Num.boundValue (-90) 0 360 < 360) ∧
      Num.boundValue 360 0 360 = 0 ∧
      (-(360 : ℚ) < -90 → (-90 : ℚ) < 0 →
        Num.boundValue (-90) 0 360 = -90 + 360) :=
  ⟨by norm_num, boundValue_zero_range (-90) 360 (by norm_num)⟩

/-- C10: the fourth parameter `positive` of `boundValue` is never read by
    the body, so it has no effect on the result. -/
theorem boundValue_positive_irrelevant :
    ∀ val mi ma : ℚ,
      Num.boundValue val mi ma true = Num.boundValue val mi ma false :=
  fun _ _ _ => rfl

/-! ### Claims about `Num.mapToRange` (C7) and `Line.slope` (C6) -/

/-- C7: `mapToRange(n, currA, currB, targetA, targetB)` fails with an
    explicit error exactly when `currA = currB` (never a silent NaN — in
    this exact model the non-error branch is total), and returns normally
    (an `ok` value) exactly when `currA ≠ currB`. -/
theorem mapToRange_error_iff :
    ∀ n a b ta tb : ℚ,
      ((∃ e, Num.mapToRange n a b ta tb = Except.error e) ↔ a = b) ∧
      ((∃ r, Num.mapToRange n a b ta tb = Except.ok r) ↔ a ≠ b) := by
  intro n a b ta tb
  by_cases hab : a = b <;> simp [Num.mapToRange, hab]

/-- C6: `slope(p1, p2)` is the undefined sentinel (`none`, distinguishable
    from every numeric value) exactly when `p2.x = p1.x`, and otherwise is
    `(y2 - y1) / (x2 - x1)`; concretely `slope([0,0],[1,1]) = 1` and
    `slope([2,3],[2,9])` is undefined. -/
theorem slope_spec :
    (∀ p1 p2 : Pt2,
      (Line.slope p1 p2 = none ↔ p2.x = p1.x) ∧
      (p2.x ≠ p1.x →
        Line.slope p1 p2 = some ((p2.y - p1.y) / (p2.x - p1.x)))) ∧
    Line.slope ⟨0, 0⟩ ⟨1, 1⟩ = some 1 ∧
    Line.slope ⟨2, 3⟩ ⟨2, 9⟩ = none := by
  refine ⟨fun p1 p2 => ⟨?_, ?_⟩, by norm_num [Line.slope], by norm_num [Line.slope]⟩
  · constructor
    · intro hn
      by_contra hx
      simp [Line.slope, sub_eq_zero, hx] at hn
    · intro hx
      simp [Line.slope, sub_eq_zero, hx]
  · intro hx
    simp [Line.slope, sub_eq_zero, hx]

/-- Witness for C6 at `p1 = (0,0)`, `p2 = (1,1)`. -/
theorem slope_spec_witness :
    Line.slope ⟨0, 0⟩ ⟨1, 1⟩ =
      some (((1 : ℚ) - 0) / ((1 : ℚ) - 0)) :=
  (slope_spec.1 ⟨0, 0⟩ ⟨1, 1⟩).2 (by norm_num)

/-! ### Claims about line intersection (C1, C2) -/

theorem slope_some_intercept (p1 p2 : Pt2) (m : ℚ)
    (h : Line.slope p1 p2 = some m) :
    Line.intercept p1 p2 =
      some ⟨m, p1.y - m * p1.x,
        if m = 0 then none else some (-(p1.y - m * p1.x) / m)⟩ := by
  by_cases hc : p2.x - p1.x = 0
  · simp [Line.slope, hc] at h
  · simp only [Line.slope, if_neg hc] at h
    rw [Option.some_inj] at h
    simp only [Line.intercept, if_neg hc, h]

theorem slope_none_intercept (p1 p2 : Pt2)
    (h : Line.slope p1 p2 = none) :
    Line.intercept p1 p2 = none := by
  by_cases hc : p2.x - p1.x = 0
  · simp only [Line.intercept, if_pos hc]
  · simp [Line.slope, hc] at h

/-- C1: when the two lines do not have two distinct defined slopes,
    `intersectPath2D` behaves as follows.  Neither vertical with equal
    slopes `m`: if the y-intercepts (`p.y - m * p.x` at the first point)
    are also equal the lines are coincident and the first point of line A
    is returned; otherwise (parallel, non-coincident) the result is the
    undefined sentinel — in particular for the segments `[[0,0],[1,0]]`
    and `[[0,1],[1,1]]`.  Both vertical: the result is the undefined
    sentinel, even when the two lines share the same x. -/
theorem intersectPath2D_degenerate_cases :
    (∀ la lb : Seg, ∀ m : ℚ,
      Line.slope la.1 la.2 = some m → Line.slope lb.1 lb.2 = some m →
      (la.1.y - m * la.1.x = lb.1.y - m * lb.1.x →
        Line.intersectPath2D la lb = some la.1) ∧
      (la.1.y - m * la.1.x ≠ lb.1.y - m * lb.1.x →
        Line.intersectPath2D la lb = none)) ∧
    (∀ la lb : Seg,
      Line.slope la.1 la.2 = none → Line.slope lb.1 lb.2 = none →
      Line.intersectPath2D la lb = none) ∧
    Line.intersectPath2D (⟨0, 0⟩, ⟨1, 0⟩) (⟨0, 1⟩, ⟨1, 1⟩) = none := by
  have part1 : ∀ la lb : Seg, ∀ m : ℚ,
      Line.slope la.1 la.2 = some m → Line.slope lb.1 lb.2 = some m →
      (la.1.y - m * la.1.x = lb.1.y - m * lb.1.x →
        Line.intersectPath2D la lb = some la.1) ∧
      (la.1.y - m * la.1.x ≠ lb.1.y - m * lb.1.x →
        Line.intersectPath2D la lb = none) := by
    intro la lb m ha hb
    have hA := slope_some_intercept la.1 la.2 m ha
    have hB := slope_some_intercept lb.1 lb.2 m hb
    constructor
    · intro hyi
      simp only [Line.intersectPath2D, hA, hB]
      rw [if_neg (by simp), if_pos hyi]
    · intro hyi
      simp only [Line.intersectPath2D, hA, hB]
      rw [if_neg (by simp), if_neg hyi]
  have part2 : ∀ la lb : Seg,
      Line.slope la.1 la.2 = none → Line.slope lb.1 lb.2 = none →
      Line.intersectPath2D la lb = none := by
    intro la lb ha hb
    have hA := slope_none_intercept la.1 la.2 ha
    have hB := slope_none_intercept lb.1 lb.2 hb
    simp only [Line.intersectPath2D, hA, hB]
  refine ⟨part1, part2, ?_⟩
  exact (part1 (⟨0, 0⟩, ⟨1, 0⟩) (⟨0, 1⟩, ⟨1, 1⟩) 0
    (by norm_num [Line.slope]) (by norm_num [Line.slope])).2 (by norm_num)

/-- Witness for C1: coincident horizontal lines return line A's first
    point; two distinct vertical lines return the undefined sentinel. -/
theorem intersectPath2D_degenerate_cases_witness :
    Line.intersectPath2D (⟨0, 0⟩, ⟨1, 0⟩) (⟨2, 0⟩, ⟨3, 0⟩) = some ⟨0, 0⟩ ∧
      Line.intersectPath2D (⟨0, 0⟩, ⟨0, 1⟩) (⟨5, 0⟩, ⟨5, 1⟩) = none := by
  constructor
  · exact (intersectPath2D_degenerate_cases.1 (⟨0, 0⟩, ⟨1, 0⟩) (⟨2, 0⟩, ⟨3, 0⟩) 0
      (by norm_num [Line.slope]) (by norm_num [Line.slope])).1 (by norm_num)
  · exact intersectPath2D_degenerate_cases.2.1 (⟨0, 0⟩, ⟨0, 1⟩) (⟨5, 0⟩, ⟨5, 1⟩)
      (by norm_num [Line.slope]) (by norm_num [Line.slope])

theorem px_symm (m1 m2 xa ya xb yb : ℚ) (h : m1 ≠ m2) :
    (m1 * xa - m2 * xb + yb - ya) / (m1 - m2) =
      (m2 * xb - m1 * xa + ya - yb) / (m2 - m1) := by
  rw [div_eq_div_iff (sub_ne_zero.mpr h) (sub_ne_zero.mpr (Ne.symm h))]
  ring

theorem py_symm (m1 m2 xa ya xb yb : ℚ) (h : m1 ≠ m2) :
    m1 * ((m1 * xa - m2 * xb + yb - ya) / (m1 - m2) - xa) + ya =
      m2 * ((m2 * xb - m1 * xa + ya - yb) / (m2 - m1) - xb) + yb := by
  rw [← px_symm m1 m2 xa ya xb yb h]
  have hne : m1 - m2 ≠ 0 := sub_ne_zero.mpr h
  field_simp
  ring

/-- The function `intersectPath2D` is symmetric whenever the two infinite lines are not
    coincident (the one branch that privileges line A's first point). -/
theorem intersectPath2D_symm (la lb : Seg)
    (h : Line.coincident la lb = false) :
    Line.intersectPath2D la lb = Line.intersectPath2D lb la := by
  rcases hA : Line.intercept la.1 la.2 with _ | ia <;>
    rcases hB : Line.intercept lb.1 lb.2 with _ | ib
  · simp [Line.intersectPath2D, hA, hB]
  · simp [Line.intersectPath2D, hA, hB]
  · simp [Line.intersectPath2D, hA, hB]
  · have hnc : ¬(ia.slope = ib.slope ∧ ia.yi = ib.yi) := by
      intro hc
      rw [Line.coincident, hA, hB] at h
      simp [hc.1, hc.2] at h
    by_cases hs : ib.slope = ia.slope
    · have hyi : ¬ ia.yi = ib.yi := fun hy => hnc ⟨hs.symm, hy⟩
      simp only [Line.intersectPath2D, hA, hB]
      rw [if_neg (fun hk : ib.slope ≠ ia.slope => hk hs), if_neg hyi,
        if_neg (fun hk : ia.slope ≠ ib.slope => hk hs.symm),
        if_neg (fun hy : ib.yi = ia.yi => hyi hy.symm)]
    · have hs' : ia.slope ≠ ib.slope := fun hy => hs hy.symm
      simp only [Line.intersectPath2D, hA, hB]
      rw [if_pos hs, if_pos hs']
      rw [Option.some_inj, Pt2.mk.injEq]
      exact ⟨px_symm ia.slope ib.slope la.1.x la.1.y lb.1.x lb.1.y hs',
        py_symm ia.slope ib.slope la.1.x la.1.y lb.1.x lb.1.y hs'⟩

/-- C2, counterexample: two non-degenerate coincident overlapping
    segments.  `intersectPath2D` returns the FIRST point of its first
    argument, which lies inside both segments' bounds for one argument
    order but not the other:
    `intersectLine2D([[0,0],[2,0]], [[1,0],[3,0]])` is undefined while
    `intersectLine2D([[1,0],[3,0]], [[0,0],[2,0]]) = (1,0)`. -/
theorem intersectLine2D_symm_cex :
    Line.intersectLine2D (⟨0, 0⟩, ⟨2, 0⟩) (⟨1, 0⟩, ⟨3, 0⟩) = none ∧
      Line.intersectLine2D (⟨1, 0⟩, ⟨3, 0⟩) (⟨0, 0⟩, ⟨2, 0⟩) = some ⟨1, 0⟩ ∧
      ((⟨0, 0⟩ : Pt2) ≠ ⟨2, 0⟩) ∧ ((⟨1, 0⟩ : Pt2) ≠ ⟨3, 0⟩) := by
  have e1 : Line.intercept ⟨0, 0⟩ ⟨2, 0⟩ = some ⟨0, 0, none⟩ := by
    norm_num [Line.intercept]
  have e2 : Line.intercept ⟨1, 0⟩ ⟨3, 0⟩ = some ⟨0, 0, none⟩ := by
    norm_num [Line.intercept]
  have hp1 : Line.intersectPath2D (⟨0, 0⟩, ⟨2, 0⟩) (⟨1, 0⟩, ⟨3, 0⟩) =
      some ⟨0, 0⟩ := by
    simp [Line.intersectPath2D, e1, e2]
  have hp2 : Line.intersectPath2D (⟨1, 0⟩, ⟨3, 0⟩) (⟨0, 0⟩, ⟨2, 0⟩) =
      some ⟨1, 0⟩ := by
    simp [Line.intersectPath2D, e2, e1]
  have hw1 : Geom.withinBound ⟨0, 0⟩ ⟨1, 0⟩ ⟨3, 0⟩ = false := by
    simp only [Geom.withinBound, decide_eq_false_iff_not]
    norm_num
  have hw2 : (Geom.withinBound ⟨1, 0⟩ ⟨1, 0⟩ ⟨3, 0⟩ &&
      Geom.withinBound ⟨1, 0⟩ ⟨0, 0⟩ ⟨2, 0⟩) = true := by
    simp only [Geom.withinBound, Bool.and_eq_true, decide_eq_true_eq]
    norm_num
  refine ⟨?_, ?_, by simp [Pt2.mk.injEq], by simp [Pt2.mk.injEq]⟩
  · simp only [Line.intersectLine2D, hp1]
    rw [if_neg]
    rw [hw1, Bool.and_false]
    simp
  · simp only [Line.intersectLine2D, hp2]
    rw [if_pos hw2]

/-- C2, amended: `intersectLine2D(A,B) = intersectLine2D(B,A)` for all
    non-degenerate segments whose infinite lines are NOT coincident (both
    slopes defined with equal slope and equal y-intercept).  The
    coincident case is the single source of asymmetry. -/
theorem intersectLine2D_symm_of_not_coincident (la lb : Seg)
    (hA : la.1 ≠ la.2) (hB : lb.1 ≠ lb.2)
    (h : Line.coincident la lb = false) :
    Line.intersectLine2D la lb = Line.intersectLine2D lb la := by
  unfold Line.intersectLine2D
  rw [intersectPath2D_symm la lb h]
  cases Line.intersectPath2D lb la with
  | none => rfl
  | some pt =>
    have hc : (Geom.withinBound pt la.1 la.2 && Geom.withinBound pt lb.1 lb.2) =
        (Geom.withinBound pt lb.1 lb.2 && Geom.withinBound pt la.1 la.2) :=
      Bool.and_comm _ _
    simp only [hc]

/-- Witness for the amended C2: the spec's crossing segments
    `[[0,0],[4,4]]` and `[[0,4],[4,0]]`. -/
theorem intersectLine2D_symm_witness :
    ((⟨0, 0⟩ : Pt2) ≠ ⟨4, 4⟩) ∧ ((⟨0, 4⟩ : Pt2) ≠ ⟨4, 0⟩) ∧
      Line.coincident (⟨0, 0⟩, ⟨4, 4⟩) (⟨0, 4⟩, ⟨4, 0⟩) = false ∧
      Line.intersectLine2D (⟨0, 0⟩, ⟨4, 4⟩) (⟨0, 4⟩, ⟨4, 0⟩) =
        Line.intersectLine2D (⟨0, 4⟩, ⟨4, 0⟩) (⟨0, 0⟩, ⟨4, 4⟩) := by
  have h1 : ((⟨0, 0⟩ : Pt2) ≠ ⟨4, 4⟩) := by simp [Pt2.mk.injEq]
  have h2 : ((⟨0, 4⟩ : Pt2) ≠ ⟨4, 0⟩) := by simp [Pt2.mk.injEq]
  have e1 : Line.intercept ⟨0, 0⟩ ⟨4, 4⟩ = some ⟨1, 0, some 0⟩ := by
    norm_num [Line.intercept]
  have e2 : Line.intercept ⟨0, 4⟩ ⟨4, 0⟩ = some ⟨-1, 4, some 4⟩ := by
    norm_num [Line.intercept]
  have h3 : Line.coincident (⟨0, 0⟩, ⟨4, 4⟩) (⟨0, 4⟩, ⟨4, 0⟩) = false := by
    rw [Line.coincident, e1, e2]
    norm_num
  exact ⟨h1, h2, h3,
    intersectLine2D_symm_of_not_coincident (⟨0, 0⟩, ⟨4, 4⟩) (⟨0, 4⟩, ⟨4, 0⟩) h1 h2 h3⟩

/-! ### Claim about `Geom.boundingBox` (C5) -/

/-- C5: the max accumulator of `boundingBox` is initialised with
    `Number.MIN_VALUE` — the smallest POSITIVE double, not the most
    negative one — so whenever every input value in a dimension is ≤ 0 the
    reported maximum is `Number.MIN_VALUE` instead of the componentwise
    maximum: `boundingBox([[-1,-1]])` reports max `= 2^(-1074) ≠ -1`.  The
    spec's all-positive-maxima scenario `boundingBox([[0,5],[3,1],[-2,7]])
    = [[-2,1],[3,7]]` does hold. -/
theorem boundingBox_min_value_bug :
    Geom.boundingBox [[-1, -1]] =
      some ([-1, -1], [Geom.numberMinValue, Geom.numberMinValue]) ∧
      Geom.numberMinValue ≠ -1 ∧ 0 < Geom.numberMinValue ∧
      Geom.boundingBox [[0, 5], [3, 1], [-2, 7]] = some ([-2, 1], [3, 7]) := by
  refine ⟨?_, ?_, ?_, ?_⟩
  · norm_num [Geom.boundingBox, Geom.bboxMinStep, Geom.bboxMaxStep,
      Geom.numberMinValue, Geom.numberMaxValue, List.range_succ]
    exact ⟨rfl, rfl⟩
  · norm_num [Geom.numberMinValue]
  · norm_num [Geom.numberMinValue]
  · norm_num [Geom.boundingBox, Geom.bboxMinStep, Geom.bboxMaxStep,
      Geom.numberMinValue, Geom.numberMaxValue, List.range_succ]
    exact ⟨rfl, rfl⟩

/-! ### Claim about `Rectangle.sides` (C8) -/

/-- C8, counterexample: for the rectangle `[[0,0],[2,3]]` the output of
    `sides` is not in the claimed winding order top, right, bottom, left:
    the FIRST returned segment is `[(0,0),(0,3)]` — the vertical LEFT edge
    (`x = 0`), not the horizontal top edge — so the output differs from
    the spec-order decomposition. -/
theorem sides_order_cex :
    Rectangle.sides (⟨0, 0⟩, ⟨2, 3⟩) ≠
        Rectangle.sidesSpecOrder (⟨0, 0⟩, ⟨2, 3⟩) ∧
      (Rectangle.sides (⟨0, 0⟩, ⟨2, 3⟩)).head? = some (⟨0, 0⟩, ⟨0, 3⟩) ∧
      ((⟨0, 0⟩ : Pt2), (⟨0, 3⟩ : Pt2)) ≠ ((⟨0, 0⟩ : Pt2), (⟨2, 0⟩ : Pt2)) ∧
      ((⟨0, 0⟩ : Pt2), (⟨0, 3⟩ : Pt2)) ≠ ((⟨2, 0⟩ : Pt2), (⟨0, 0⟩ : Pt2)) := by
  refine ⟨?_, rfl, ?_, ?_⟩
  · simp [Rectangle.sides, Rectangle.sidesSpecOrder, Prod.ext_iff, Pt2.mk.injEq]
    intro h1 h2 h3
    have hx := congrArg (fun s => s.2.x) h1
    norm_num at hx
  · simp [Prod.ext_iff, Pt2.mk.injEq]
  · simp [Prod.ext_iff, Pt2.mk.injEq]

/-- C8, amended: `sides` returns the four boundary segments in the
    winding order left, bottom, right, top — precisely the reversed
    traversal of the claimed top, right, bottom, left order (each segment
    also traversed in the opposite direction), starting from the same
    corner; explicitly `[[p0,(p0.x,p2.y)], [(p0.x,p2.y),p2],
    [p2,(p2.x,p0.y)], [(p2.x,p0.y),p0]]`. -/
theorem sides_order_amended :
    ∀ g : Seg,
      Rectangle.sides g =
          ((Rectangle.sidesSpecOrder g).reverse.map fun s => (s.2, s.1)) ∧
      Rectangle.sides g =
          [(g.1, ⟨g.1.x, g.2.y⟩), (⟨g.1.x, g.2.y⟩, g.2),
           (g.2, ⟨g.2.x, g.1.y⟩), (⟨g.2.x, g.1.y⟩, g.1)] :=
  fun _ => ⟨rfl, rfl⟩

end Op
